import Mathlib

/-!
# Verification of the ez-web-audio automation/scheduling core

Shallow embedding of the parameter-automation command queue
(`src/param-controller.ts`, class `BaseParamController`), the `Connection`
materialization constructor, the spec's `apply` contract, the beat
sequencer's offset computation, and the `Sound.duration` getter.

JS numbers are modelled as `ℚ`.  JS object identity (the `!==` comparison
in `removeStartingValue`) is modelled by tagging each pushed starting
value with a fresh natural-number id drawn from an allocation counter
kept in the controller state.  JS exceptions in mutating methods are
modelled as `State × Option String`: the first component is the state of
the object after the call (mutations performed before a `throw` persist),
the second is `some msg` when the call threw.
-/

/-- A parameter value, `interface ParamValue { type, value }` of
`param-controller.ts` (the `type` field is the parameter key, e.g.
`'gain'`). -/
structure ParamValue where
  type : String
  value : ℚ
deriving DecidableEq, Repr

/-- `interface ValueAtTime extends ParamValue { time }`. -/
structure ValueAtTime where
  type : String
  value : ℚ
  time : ℚ
deriving DecidableEq, Repr

/-- The mutable state of a `BaseParamController`: its four command queues.
`startingValues` entries are paired with the allocation id modelling JS
object identity; `nextId` is the allocation counter. -/
structure ControllerState where
  nextId : Nat
  startingValues : List (Nat × ParamValue)
  valuesAtTime : List ValueAtTime
  exponentialValues : List ValueAtTime
  linearValues : List ValueAtTime
deriving DecidableEq, Repr

/-- A freshly constructed `BaseParamController`: all four queues empty. -/
def emptyController : ControllerState :=
  { nextId := 0, startingValues := [], valuesAtTime := [],
    exponentialValues := [], linearValues := [] }

/-- `private removeStartingValue(startValue)`:
`this.startingValues = this.startingValues.filter(item => item !== startValue)`.
The JS reference comparison `!==` is the id comparison. -/
def removeStartingValue (s : ControllerState) (tok : Nat) : ControllerState :=
  { s with startingValues := s.startingValues.filter (fun p => p.1 ≠ tok) }

/-- `private addRampValue(valueAtTime, rampType)`: pushes onto the
exponential or linear queue, `throw new Error('Unsupported ramp type: …')`
on any other kind.  The thrown message is returned in the second
component; the state in the first component is the state after the call. -/
def addRampValue (s : ControllerState) (v : ValueAtTime) (rampType : String) :
    ControllerState × Option String :=
  if rampType = "exponential" then
    ({ s with exponentialValues := s.exponentialValues ++ [v] }, none)
  else if rampType = "linear" then
    ({ s with linearValues := s.linearValues ++ [v] }, none)
  else
    (s, some ("Unsupported ramp type: " ++ rampType))

/-- `onPlaySet(type)` followed by `.to(value)`: pushes a fresh
`ParamValue { type, value }` onto `startingValues`.  Returns the new state
and the identity token of the pushed object (captured by the `at` /
`endingAt` closures of the returned continuation). -/
def onPlaySet_to (s : ControllerState) (type : String) (value : ℚ) :
    ControllerState × Nat :=
  ({ s with
      startingValues := s.startingValues ++ [(s.nextId, ⟨type, value⟩)],
      nextId := s.nextId + 1 }, s.nextId)

/-- The continuation's `at(time)`: `removeStartingValue(paramValue)` then
`valuesAtTime.push({ ...paramValue, time })`.  `tok`, `type`, `value` are
the captured `paramValue`. -/
def atTime (s : ControllerState) (tok : Nat) (type : String) (value time : ℚ) :
    ControllerState :=
  let s1 := removeStartingValue s tok
  { s1 with valuesAtTime := s1.valuesAtTime ++ [⟨type, value, time⟩] }

/-- The continuation's `endingAt(time, rampType = 'exponential')`:
`removeStartingValue(paramValue)` then
`addRampValue({ ...paramValue, time }, rampType)`.  Note the removal runs
before `addRampValue` can throw. -/
def endingAt (s : ControllerState) (tok : Nat) (type : String)
    (value time : ℚ) (rampType : String) : ControllerState × Option String :=
  addRampValue (removeStartingValue s tok) ⟨type, value, time⟩ rampType

/-- `onPlayRamp(type, rampType?).from(startValue).to(endValue).in(endTime)`:
`this.onPlaySet(type).to(startValue)` then
`this.onPlaySet(type).to(endValue).endingAt(endTime, rampType)`.
`rampType` is optional; an absent argument falls to `endingAt`'s default
`'exponential'`. -/
def onPlayRamp_in (s : ControllerState) (type : String) (rampType : Option String)
    (startValue endValue endTime : ℚ) : ControllerState × Option String :=
  let s1 := (onPlaySet_to s type startValue).1
  let p := onPlaySet_to s1 type endValue
  endingAt p.1 p.2 type endValue endTime (rampType.getD "exponential")

/-! ## Connection materialization (`Connection` class, its constructor) -/

/-- `interface NodeAttributes { attrNameOnNode, relativePath, value? }`. -/
structure NodeAttributes where
  attrNameOnNode : String
  relativePath : String
  value : Option ℚ
deriving DecidableEq, Repr

/-- `interface NodeAttributesOptions { key, value, startTime?, endTime? }`. -/
structure NodeAttributesOptions where
  key : String
  value : ℚ
  startTime : Option ℚ
  endTime : Option ℚ
deriving DecidableEq, Repr

/-- `interface ConnectionOptions` — every field but `name` is optional, and
`name` itself may be absent at runtime (the constructor defaults it).
Audio nodes are modelled as opaque handles (`Nat`). -/
structure ConnectionOptions where
  name : Option String
  createdOnPlay : Option Bool
  createCommand : Option String
  source : Option String
  path : Option String
  onPlaySetAttrsOnNode : Option (List NodeAttributes)
  exponentialRampToValuesAtTime : Option (List NodeAttributesOptions)
  linearRampToValuesAtTime : Option (List NodeAttributesOptions)
  setValuesAtTime : Option (List NodeAttributesOptions)
  startingValues : Option (List NodeAttributesOptions)
deriving DecidableEq, Repr

/-- The fields of a materialized `Connection`. -/
structure Connection where
  name : String
  createdOnPlay : Bool
  createCommand : String
  source : String
  path : String
  onPlaySetAttrsOnNode : List NodeAttributes
  exponentialRampToValuesAtTime : List NodeAttributesOptions
  linearRampToValuesAtTime : List NodeAttributesOptions
  setValuesAtTime : List NodeAttributesOptions
  startingValues : List NodeAttributesOptions
  node : Option Nat
deriving DecidableEq, Repr

/-- `constructor(opts: ConnectionOptions, node?: AudioNode)`: every field is
defaulted with `||`-style fallbacks (`''`, `false`, `[]`); `this.node` is set
only when the optional `node` argument is provided.  The constructor body is
straight-line field assignment — it has no validation and no `throw`. -/
def mkConnection (opts : ConnectionOptions) (node : Option Nat) : Connection :=
  { name := opts.name.getD ""
    createdOnPlay := opts.createdOnPlay.getD false
    createCommand := opts.createCommand.getD ""
    source := opts.source.getD ""
    path := opts.path.getD ""
    onPlaySetAttrsOnNode := opts.onPlaySetAttrsOnNode.getD []
    exponentialRampToValuesAtTime := opts.exponentialRampToValuesAtTime.getD []
    linearRampToValuesAtTime := opts.linearRampToValuesAtTime.getD []
    setValuesAtTime := opts.setValuesAtTime.getD []
    startingValues := opts.startingValues.getD []
    node := node }

/-! ## The apply contract (spec §4.1) -/

/-- One scheduling effect issued to the rendering backend. -/
inductive Effect where
  /-- Immediate set of the parameter at the anchor. -/
  | setNow (key : String) (value : ℚ) (time : ℚ)
  /-- `setValueAtTime` at an absolute time. -/
  | setAt (key : String) (value : ℚ) (time : ℚ)
  /-- `linearRampToValueAtTime` ending at an absolute time. -/
  | linearRamp (key : String) (value : ℚ) (endTime : ℚ)
  /-- `exponentialRampToValueAtTime` ending at an absolute time. -/
  | expRamp (key : String) (value : ℚ) (endTime : ℚ)
deriving DecidableEq, Repr

/-- Whether an effect is an immediate (StartingValue) set. -/
def Effect.isStartingEffect : Effect → Bool
  | .setNow _ _ _ => true
  | _ => false

/-- Effect of one remaining StartingValue command: immediate set at the anchor. -/
def svEffect (anchor : ℚ) (p : Nat × ParamValue) : Effect :=
  .setNow p.2.type p.2.value anchor

/-- Effect of one SetAtTime command: absolute set at `anchor + offset`. -/
def satEffect (anchor : ℚ) (v : ValueAtTime) : Effect :=
  .setAt v.type v.value (anchor + v.time)

/-- Effect of one exponential-ramp command. -/
def expEffect (anchor : ℚ) (v : ValueAtTime) : Effect :=
  .expRamp v.type v.value (anchor + v.time)

/-- Effect of one linear-ramp command. -/
def linEffect (anchor : ℚ) (v : ValueAtTime) : Effect :=
  .linearRamp v.type v.value (anchor + v.time)

/-- Modelled from the spec: the `apply(node, anchor)` routine itself
(`setValuesAtTimes` / the Playable mixin's apply step) is not under `src/`
— only the `ParamController` interface declaring it is.  Per §4.1, apply
issues (1) all remaining StartingValue commands as immediate sets at the
anchor, then (2) all SetAtTime commands at `anchor + offset`, then (3) all
ramp commands ending at `anchor + endOffset`, each category in enqueue
order (the four-array queue state keeps no cross-kind enqueue order among
ramps; the exponential queue is issued before the linear one). -/
def applyQueue (s : ControllerState) (anchor : ℚ) : List Effect :=
  s.startingValues.map (svEffect anchor)
    ++ (s.valuesAtTime.map (satEffect anchor)
    ++ (s.exponentialValues.map (expEffect anchor)
    ++ s.linearValues.map (linEffect anchor)))

/-! ## Beat sequencer (spec §4.4) -/

/-- `slotSeconds = (60 / tempoBpm) * 4 * noteFraction`. -/
def slotSeconds (tempoBpm noteFraction : ℚ) : ℚ :=
  60 / tempoBpm * 4 * noteFraction

/-- Helper: trigger times of the active beats of `beats`, the head having
index `i`, each at `anchor + index * slot`. -/
def beatTimesFrom (i : Nat) (beats : List Bool) (slot anchor : ℚ) : List ℚ :=
  match beats with
  | [] => []
  | b :: rest =>
      (if b then [anchor + i * slot] else []) ++ beatTimesFrom (i + 1) rest slot anchor

/-- Modelled from the spec: `BeatTrack.playActiveBeats(tempoBpm, noteFraction)`
is not under `src/` (only its demo caller is).  Per §4.4, it computes
`slotSeconds`, takes one shared anchor, and for each beat index `i` with
`active` true triggers `play` at offset `i * slotSeconds` from that anchor.
The result lists the absolute trigger times in beat order. -/
def playActiveBeats (beats : List Bool) (tempoBpm noteFraction anchor : ℚ) : List ℚ :=
  beatTimesFrom 0 beats (slotSeconds tempoBpm noteFraction) anchor

/-! ## `Sound.duration` (`sound.ts`) -/

/-- The duration object's numeric content. -/
structure TimeObject where
  raw : ℚ
  minutes : ℤ
  seconds : ℚ
deriving DecidableEq, Repr

/-- Modelled from the spec: `createTimeObject` lives in `src/utils`, which is
not under `src/`; per the `duration` doc comment it packages the raw
duration together with the minutes/seconds pair. -/
def createTimeObject (raw : ℚ) (min : ℤ) (sec : ℚ) : TimeObject :=
  ⟨raw, min, sec⟩

/-- JS `a % b` for the nonnegative operands occurring here (an
`AudioBuffer` duration is nonnegative, and there truncating and flooring
division agree). -/
def jsMod (a b : ℚ) : ℚ := a - b * ⌊a / b⌋

/-- The `duration` getter of `Sound`:
`min = Math.floor(duration / 60)`, `sec = duration % 60`,
`createTimeObject(duration, min, sec)`.  A pure function of the buffer
duration: it reads `audioBuffer.duration` and writes nothing. -/
def soundDuration (d : ℚ) : TimeObject :=
  createTimeObject d ⌊d / 60⌋ (jsMod d 60)

/-! ## Helper lemmas -/

/-- A filter keeping every id other than `n` keeps a list whose ids are all
below `n`. -/
lemma filter_ne_of_lt (l : List (Nat × ParamValue)) (n : Nat)
    (h : ∀ p ∈ l, p.1 < n) : l.filter (fun p => p.1 ≠ n) = l := by
  rw [List.filter_eq_self]
  intro p hp
  simpa using Nat.ne_of_lt (h p hp)

/-- Removing the starting value just pushed by `onPlaySet(k).to(v)` restores
the original queue (only the allocation counter has moved). -/
lemma remove_pushed (s : ControllerState) (k : String) (v : ℚ)
    (hfresh : ∀ p ∈ s.startingValues, p.1 < s.nextId) :
    removeStartingValue (onPlaySet_to s k v).1 (onPlaySet_to s k v).2
      = { s with nextId := s.nextId + 1 } := by
  obtain ⟨n, sv, vat, ev, lv⟩ := s
  simp only [removeStartingValue, onPlaySet_to, List.filter_append]
  simp only [ControllerState.mk.injEq, and_true, true_and]
  rw [filter_ne_of_lt sv n hfresh]
  simp

/-- The starting value pushed by `onPlaySet(k).to(v)` carries a fresh id, so
it is not an element of the original queue. -/
lemma pushed_not_mem (s : ControllerState) (k : String) (v : ℚ)
    (hfresh : ∀ p ∈ s.startingValues, p.1 < s.nextId) :
    ((onPlaySet_to s k v).2, (⟨k, v⟩ : ParamValue)) ∉ s.startingValues := by
  intro hmem
  exact absurd rfl (Nat.ne_of_lt (hfresh _ hmem))

/-! ## Claims -/

/-- Claim C1: `onPlaySet(k).to(v)` with nothing further leaves exactly one
new StartingValue `{k, v}` in the queue and touches no other queue; `.at(t)`
removes that StartingValue and adds exactly one SetAtTime `{k, v, t}`;
`.endingAt(t, kind)` for each supported kind removes it and adds exactly one
ramp command of that kind; after any of these terminal calls the queue no
longer contains the StartingValue that the command replaced. -/
theorem C1_onPlaySet_builder_exactness (s : ControllerState) (k : String) (v t : ℚ)
    (hfresh : ∀ p ∈ s.startingValues, p.1 < s.nextId) :
    ((onPlaySet_to s k v).1.startingValues
        = s.startingValues ++ [((onPlaySet_to s k v).2, ⟨k, v⟩)]
     ∧ (onPlaySet_to s k v).1.valuesAtTime = s.valuesAtTime
     ∧ (onPlaySet_to s k v).1.exponentialValues = s.exponentialValues
     ∧ (onPlaySet_to s k v).1.linearValues = s.linearValues)
    ∧ (atTime (onPlaySet_to s k v).1 (onPlaySet_to s k v).2 k v t
        = { s with nextId := s.nextId + 1,
                   valuesAtTime := s.valuesAtTime ++ [⟨k, v, t⟩] })
    ∧ (endingAt (onPlaySet_to s k v).1 (onPlaySet_to s k v).2 k v t "exponential"
        = ({ s with nextId := s.nextId + 1,
                    exponentialValues := s.exponentialValues ++ [⟨k, v, t⟩] }, none))
    ∧ (endingAt (onPlaySet_to s k v).1 (onPlaySet_to s k v).2 k v t "linear"
        = ({ s with nextId := s.nextId + 1,
                    linearValues := s.linearValues ++ [⟨k, v, t⟩] }, none))
    ∧ ((onPlaySet_to s k v).2, (⟨k, v⟩ : ParamValue))
        ∉ (atTime (onPlaySet_to s k v).1 (onPlaySet_to s k v).2 k v t).startingValues
    ∧ ((onPlaySet_to s k v).2, (⟨k, v⟩ : ParamValue))
        ∉ (endingAt (onPlaySet_to s k v).1 (onPlaySet_to s k v).2 k v t
            "exponential").1.startingValues
    ∧ ((onPlaySet_to s k v).2, (⟨k, v⟩ : ParamValue))
        ∉ (endingAt (onPlaySet_to s k v).1 (onPlaySet_to s k v).2 k v t
            "linear").1.startingValues := by
  have hrm := remove_pushed s k v hfresh
  have hnm := pushed_not_mem s k v hfresh
  refine ⟨⟨rfl, rfl, rfl, rfl⟩, ?_, ?_, ?_, ?_, ?_, ?_⟩
  · simp [atTime, hrm]
  · simp [endingAt, addRampValue, hrm]
  · simp [endingAt, addRampValue, hrm]
  · simpa [atTime, hrm] using hnm
  · simpa [endingAt, addRampValue, hrm] using hnm
  · simpa [endingAt, addRampValue, hrm] using hnm

/-- Witness for C1 at the empty controller, key `gain`, value 1, time 2. -/
theorem C1_onPlaySet_builder_exactness_witness :
    (∀ p ∈ emptyController.startingValues, p.1 < emptyController.nextId)
    ∧ atTime (onPlaySet_to emptyController "gain" 1).1
        (onPlaySet_to emptyController "gain" 1).2 "gain" 1 2
      = { emptyController with nextId := 1, valuesAtTime := [⟨"gain", 1, 2⟩] } :=
  ⟨by simp [emptyController],
   (C1_onPlaySet_builder_exactness emptyController "gain" 1 2
      (by simp [emptyController])).2.1⟩

/-- Claim C2: `onPlayRamp(k, kind).from(a).to(b).in(t)` produces exactly the
state (and outcome) of `onPlaySet(k).to(a)` followed by
`onPlaySet(k).to(b).endingAt(t, kind)`, from any initial queue. -/
theorem C2_onPlayRamp_is_two_onPlaySets (s : ControllerState) (k kind : String)
    (a b t : ℚ) :
    onPlayRamp_in s k (some kind) a b t
      = endingAt (onPlaySet_to (onPlaySet_to s k a).1 k b).1
          (onPlaySet_to (onPlaySet_to s k a).1 k b).2 k b t kind := rfl

/-- Removing the first of two identical starting values pushed in
succession removes only that one: the second duplicate survives. -/
lemma remove_first_of_two (n : Nat) (sv : List (Nat × ParamValue))
    (vat ev lv : List ValueAtTime) (k : String) (v : ℚ)
    (h : ∀ p ∈ sv, p.1 < n) :
    removeStartingValue
        ⟨n + 1 + 1, sv ++ [(n, ⟨k, v⟩), (n + 1, ⟨k, v⟩)], vat, ev, lv⟩ n
      = ⟨n + 2, sv ++ [(n + 1, ⟨k, v⟩)], vat, ev, lv⟩ := by
  have h1 := filter_ne_of_lt sv n h
  simp [removeStartingValue, List.filter_append, h1]
  intro a b hab
  exact Nat.ne_of_lt (h (a, b) hab)

/-- Claim C9: when two StartingValue commands with the same key and value
have been enqueued by two separate `onPlaySet(k).to(v)` calls, the terminal
`.at(t)` / `.endingAt(t, kind)` of the first continuation removes only the
StartingValue pushed by that continuation's own `.to` (removal is by object
identity): the duplicate pushed by the second call survives, and the other
three queues gain only the one expected command. -/
theorem C9_removal_by_identity (s : ControllerState) (k : String) (v t : ℚ)
    (hfresh : ∀ p ∈ s.startingValues, p.1 < s.nextId) :
    (onPlaySet_to s k v).2 ≠ (onPlaySet_to (onPlaySet_to s k v).1 k v).2
    ∧ atTime (onPlaySet_to (onPlaySet_to s k v).1 k v).1
        (onPlaySet_to s k v).2 k v t
      = { s with nextId := s.nextId + 2,
                 startingValues := s.startingValues
                   ++ [((onPlaySet_to (onPlaySet_to s k v).1 k v).2, ⟨k, v⟩)],
                 valuesAtTime := s.valuesAtTime ++ [⟨k, v, t⟩] }
    ∧ endingAt (onPlaySet_to (onPlaySet_to s k v).1 k v).1
        (onPlaySet_to s k v).2 k v t "linear"
      = ({ s with nextId := s.nextId + 2,
                  startingValues := s.startingValues
                    ++ [((onPlaySet_to (onPlaySet_to s k v).1 k v).2, ⟨k, v⟩)],
                  linearValues := s.linearValues ++ [⟨k, v, t⟩] }, none) := by
  obtain ⟨n, sv, vat, ev, lv⟩ := s
  have hrm := remove_first_of_two n sv vat ev lv k v hfresh
  refine ⟨by simp [onPlaySet_to], ?_, ?_⟩
  · simp [atTime, onPlaySet_to, hrm]
  · simp [endingAt, addRampValue, onPlaySet_to, hrm]

/-- Witness for C9 at the empty controller, key `gain`, value 1, time 2. -/
theorem C9_removal_by_identity_witness :
    (∀ p ∈ emptyController.startingValues, p.1 < emptyController.nextId)
    ∧ atTime (onPlaySet_to (onPlaySet_to emptyController "gain" 1).1 "gain" 1).1
        (onPlaySet_to emptyController "gain" 1).2 "gain" 1 2
      = { emptyController with
            nextId := 2
            startingValues := [(1, ⟨"gain", 1⟩)]
            valuesAtTime := [⟨"gain", 1, 2⟩] } :=
  ⟨by simp [emptyController],
   (C9_removal_by_identity emptyController "gain" 1 2
      (by simp [emptyController])).2.1⟩

/-- Claim C3 (code behaviour at the failing input): enqueuing an
exponential ramp whose target value is 0 —
`onPlaySet('gain').to(0).endingAt(1, 'exponential')` on a fresh controller —
does NOT fail: `addRampValue` performs no zero check, the call returns
normally (`none` in the error component) and the exponential queue has
gained the command, so the queues are not as they were before the call. -/
theorem C3_exponential_ramp_to_zero_accepted :
    endingAt (onPlaySet_to emptyController "gain" 0).1
        (onPlaySet_to emptyController "gain" 0).2 "gain" 0 1 "exponential"
      = ({ emptyController with
            nextId := 1
            exponentialValues := [⟨"gain", 0, 1⟩] }, none) := by
  decide

/-- Claim C4 (counterexample): on a fresh controller,
`onPlaySet('gain').to(1).endingAt(2, 'cubic')` raises the unsupported-ramp
error, yet the queue state is NOT unchanged: the StartingValue pushed by
`.to(1)` has already been removed when the error is raised, so
`startingValues` is empty after the failing call instead of still holding
`{gain, 1}`. -/
theorem C4_counterexample_starting_value_lost :
    (endingAt (onPlaySet_to emptyController "gain" 1).1
        (onPlaySet_to emptyController "gain" 1).2 "gain" 1 2 "cubic").2
      = some "Unsupported ramp type: cubic"
    ∧ (endingAt (onPlaySet_to emptyController "gain" 1).1
        (onPlaySet_to emptyController "gain" 1).2 "gain" 1 2 "cubic").1.startingValues
      = [] := by
  constructor
  · decide
  · decide

/-- Claim C4 as amended: when `.endingAt(t, kind)` raises because `kind` is
not a supported ramp kind, the raising call has already removed the
StartingValue pushed by the preceding `.to(value)` (the removal precedes
the failing switch), and no command has been added to any queue: the
resulting state is exactly `removeStartingValue` applied to the pre-call
state, together with the raised error. -/
theorem C4_amended_removal_precedes_error (s : ControllerState) (tok : Nat)
    (k : String) (v t : ℚ) (kind : String)
    (h1 : kind ≠ "linear") (h2 : kind ≠ "exponential") :
    endingAt s tok k v t kind
      = (removeStartingValue s tok, some ("Unsupported ramp type: " ++ kind)) := by
  simp [endingAt, addRampValue, h1, h2]

/-- Witness for the amended C4 at a concrete state and the kind `cubic`. -/
theorem C4_amended_removal_precedes_error_witness :
    ("cubic" ≠ "linear" ∧ "cubic" ≠ "exponential")
    ∧ endingAt ⟨1, [(0, ⟨"gain", 5⟩)], [], [], []⟩ 0 "gain" 5 2 "cubic"
      = (removeStartingValue ⟨1, [(0, ⟨"gain", 5⟩)], [], [], []⟩ 0,
         some ("Unsupported ramp type: " ++ "cubic")) :=
  ⟨⟨by decide, by decide⟩,
   C4_amended_removal_precedes_error ⟨1, [(0, ⟨"gain", 5⟩)], [], [], []⟩ 0
     "gain" 5 2 "cubic" (by decide) (by decide)⟩

/-- Claim C5: for every ramp-kind argument that is neither `linear` nor
`exponential`, the `.endingAt(t, kind)` call itself raises the
unsupported-ramp error synchronously (the error is the outcome of that very
call, not deferred to apply time). -/
theorem C5_invalid_ramp_kind_raises_at_call (s : ControllerState) (tok : Nat)
    (k : String) (v t : ℚ) (kind : String)
    (h1 : kind ≠ "linear") (h2 : kind ≠ "exponential") :
    (endingAt s tok k v t kind).2 = some ("Unsupported ramp type: " ++ kind) := by
  simp [endingAt, addRampValue, h1, h2]

/-- Witness for C5 at the empty controller and the kind `cosine`. -/
theorem C5_invalid_ramp_kind_raises_at_call_witness :
    ("cosine" ≠ "linear" ∧ "cosine" ≠ "exponential")
    ∧ (endingAt emptyController 0 "frequency" 3 4 "cosine").2
      = some ("Unsupported ramp type: " ++ "cosine") :=
  ⟨⟨by decide, by decide⟩,
   C5_invalid_ramp_kind_raises_at_call emptyController 0 "frequency" 3 4 "cosine"
     (by decide) (by decide)⟩

/-- In a concatenation whose left part satisfies a Boolean predicate
everywhere and whose right part refutes it everywhere, every position
satisfying the predicate precedes every position refuting it. -/
lemma append_index_lt {α : Type} (p : α → Bool) (A B : List α)
    (hA : ∀ e ∈ A, p e = true) (hB : ∀ e ∈ B, p e = false) :
    ∀ i j : Fin (A ++ B).length,
      p ((A ++ B).get i) = true → p ((A ++ B).get j) = false →
      (i : ℕ) < (j : ℕ) := by
  intro i j hi hj
  have hiA : (i : ℕ) < A.length := by
    by_contra hge
    push_neg at hge
    rw [List.get_eq_getElem, List.getElem_append_right hge] at hi
    rw [hB _ (List.getElem_mem _)] at hi
    exact Bool.noConfusion hi
  have hjB : A.length ≤ (j : ℕ) := by
    by_contra hlt
    push_neg at hlt
    rw [List.get_eq_getElem, List.getElem_append_left hlt] at hj
    rw [hA _ (List.getElem_mem _)] at hj
    exact Bool.noConfusion hj
  omega

/-- Claim C6: for every queue contents and every anchor, the effect list
issued by apply decomposes as the StartingValue effects (in enqueue order),
then the SetAtTime effects (in enqueue order), then the ramp effects; every
effect in the first block is an immediate set and none afterwards is, so
every StartingValue effect is issued at a strictly earlier position than
every SetAtTime or ramp effect. -/
theorem C6_apply_starting_values_first (s : ControllerState) (anchor : ℚ) :
    applyQueue s anchor
      = s.startingValues.map (svEffect anchor)
        ++ (s.valuesAtTime.map (satEffect anchor)
        ++ (s.exponentialValues.map (expEffect anchor)
        ++ s.linearValues.map (linEffect anchor)))
    ∧ (∀ e ∈ s.startingValues.map (svEffect anchor), e.isStartingEffect = true)
    ∧ (∀ e ∈ s.valuesAtTime.map (satEffect anchor)
          ++ (s.exponentialValues.map (expEffect anchor)
          ++ s.linearValues.map (linEffect anchor)), e.isStartingEffect = false)
    ∧ ∀ i j : Fin (applyQueue s anchor).length,
        ((applyQueue s anchor).get i).isStartingEffect = true →
        ((applyQueue s anchor).get j).isStartingEffect = false →
        (i : ℕ) < (j : ℕ) := by
  have hA : ∀ e ∈ s.startingValues.map (svEffect anchor),
      Effect.isStartingEffect e = true := by
    intro e he
    simp only [List.mem_map] at he
    obtain ⟨q, _, rfl⟩ := he
    rfl
  have hB : ∀ e ∈ s.valuesAtTime.map (satEffect anchor)
        ++ (s.exponentialValues.map (expEffect anchor)
        ++ s.linearValues.map (linEffect anchor)),
      Effect.isStartingEffect e = false := by
    intro e he
    simp only [List.mem_append, List.mem_map] at he
    rcases he with ⟨q, _, rfl⟩ | ⟨q, _, rfl⟩ | ⟨q, _, rfl⟩ <;> rfl
  exact ⟨rfl, hA, hB, append_index_lt Effect.isStartingEffect _ _ hA hB⟩

/-- A queue holding one StartingValue and one SetAtTime, for the C6 witness. -/
def demoQueueState : ControllerState :=
  ⟨2, [(0, ⟨"gain", 1⟩)], [⟨"gain", 2, 3⟩], [], []⟩

/-- Witness for C6: on `demoQueueState` the StartingValue effect at position
0 precedes the SetAtTime effect at position 1. -/
theorem C6_apply_starting_values_first_witness : (0 : ℕ) < 1 :=
  (C6_apply_starting_values_first demoQueueState 0).2.2.2
    ⟨0, by decide⟩ ⟨1, by decide⟩ (by decide) (by decide)

/-- A `ConnectionOptions` with none of {path, createCommand, node} set. -/
def underSpecifiedOpts : ConnectionOptions :=
  ⟨some "osc", none, none, none, none, none, none, none, none, none⟩

/-- A `ConnectionOptions` with both a path and a createCommand set (used with
a node argument as well: all three sources present). -/
def overSpecifiedOpts : ConnectionOptions :=
  ⟨some "dest", none, some "createGain", some "audioContext",
   some "audioContext.destination", none, none, none, none, none⟩

/-- Claim C7 (counterexample): materializing a NodeSpec with none of
{reference path, factory command, handle} set — and likewise one with all
three set — raises nothing: the `Connection` constructor is a total,
straight-line field assignment with no validation and no error path, and it
returns a fully defaulted `Connection` on both malformed inputs. -/
theorem C7_counterexample_no_configuration_error :
    mkConnection underSpecifiedOpts none
      = ⟨"osc", false, "", "", "", [], [], [], [], [], none⟩
    ∧ mkConnection overSpecifiedOpts (some 7)
      = ⟨"dest", false, "createGain", "audioContext", "audioContext.destination",
         [], [], [], [], [], some 7⟩ := by
  constructor
  · rfl
  · rfl

/-- Claim C7 as amended: the `Connection` constructor performs no
validation: a NodeSpec with no reference path and no factory command (and
possibly no handle) is accepted without error, yielding a connection whose
`path` and `createCommand` are the empty string, whose queues are empty
unless supplied, and whose `node` is just the optional handle argument; no
ConfigurationError is raised at materialization time. -/
theorem C7_amended_constructor_never_raises (opts : ConnectionOptions)
    (nd : Option Nat) (h1 : opts.path = none) (h2 : opts.createCommand = none) :
    mkConnection opts nd
      = { name := opts.name.getD ""
          createdOnPlay := opts.createdOnPlay.getD false
          createCommand := ""
          source := opts.source.getD ""
          path := ""
          onPlaySetAttrsOnNode := opts.onPlaySetAttrsOnNode.getD []
          exponentialRampToValuesAtTime := opts.exponentialRampToValuesAtTime.getD []
          linearRampToValuesAtTime := opts.linearRampToValuesAtTime.getD []
          setValuesAtTime := opts.setValuesAtTime.getD []
          startingValues := opts.startingValues.getD []
          node := nd } := by
  simp [mkConnection, h1, h2]

/-- Witness for the amended C7 at the under-specified options. -/
theorem C7_amended_constructor_never_raises_witness :
    (underSpecifiedOpts.path = none ∧ underSpecifiedOpts.createCommand = none)
    ∧ mkConnection underSpecifiedOpts none
      = { name := underSpecifiedOpts.name.getD ""
          createdOnPlay := underSpecifiedOpts.createdOnPlay.getD false
          createCommand := ""
          source := underSpecifiedOpts.source.getD ""
          path := ""
          onPlaySetAttrsOnNode := underSpecifiedOpts.onPlaySetAttrsOnNode.getD []
          exponentialRampToValuesAtTime :=
            underSpecifiedOpts.exponentialRampToValuesAtTime.getD []
          linearRampToValuesAtTime :=
            underSpecifiedOpts.linearRampToValuesAtTime.getD []
          setValuesAtTime := underSpecifiedOpts.setValuesAtTime.getD []
          startingValues := underSpecifiedOpts.startingValues.getD []
          node := none } :=
  ⟨⟨rfl, rfl⟩,
   C7_amended_constructor_never_raises underSpecifiedOpts none rfl rfl⟩

/-- The 8-beat track of the claim: beats active at indices 0, 3 and 5. -/
def eightBeats : List Bool :=
  [true, false, false, true, false, true, false, false]

/-- Claim C8: `playActiveBeats(120, 1/8)` on the 8-beat track with active
indices {0, 3, 5} computes `slotSeconds = (60 / 120) * 4 * (1/8) = 0.25`
and triggers exactly 3 plays, at offsets 0, 0.75 and 1.25 seconds from the
one shared anchor. -/
theorem C8_beat_grid_offsets (anchor : ℚ) :
    slotSeconds 120 (1/8) = 1/4
    ∧ playActiveBeats eightBeats 120 (1/8) anchor
        = [anchor, anchor + 3/4, anchor + 5/4]
    ∧ (playActiveBeats eightBeats 120 (1/8) anchor).length = 3 := by
  refine ⟨by norm_num [slotSeconds], ?_, ?_⟩
  · simp only [playActiveBeats, eightBeats, beatTimesFrom, slotSeconds]
    norm_num
  · simp only [playActiveBeats, eightBeats, beatTimesFrom, slotSeconds]
    norm_num

/-- Claim C10: the `duration` getter builds its value from `raw = d`,
`minutes = ⌊d / 60⌋` and `seconds = d mod 60`, and these satisfy
`minutes * 60 + seconds = d`; the getter is a pure function of the buffer
duration (it mutates nothing). -/
theorem C10_duration_getter (d : ℚ) (_h : 0 ≤ d) :
    (soundDuration d).raw = d
    ∧ (soundDuration d).minutes = ⌊d / 60⌋
    ∧ (soundDuration d).seconds = jsMod d 60
    ∧ ((soundDuration d).minutes : ℚ) * 60 + (soundDuration d).seconds = d := by
  refine ⟨rfl, rfl, rfl, ?_⟩
  simp only [soundDuration, createTimeObject, jsMod]
  ring

/-- Witness for C10 at a 390-second (6:30) buffer. -/
theorem C10_duration_getter_witness :
    (0 : ℚ) ≤ 390
    ∧ ((soundDuration 390).minutes : ℚ) * 60 + (soundDuration 390).seconds = 390 :=
  ⟨by norm_num, (C10_duration_getter 390 (by norm_num)).2.2.2⟩
